import Mathlib

/-!
Verification of the search-indexing and query layer of the himalayan-backend
repository (Algolia product indexing).

The definitions below are a shallow embedding of:
  * `src/services/algolia.service.ts` (record transformer, validation,
    batched indexing, delete/update, search filter building and result
    normalization), and
  * `src/scripts/sync-products.ts` (the published-product sync script and
    its remote inventory-quantity lookup).

JavaScript numbers are modelled as rationals (`ℚ`), with the `NaN` value of
type number given its own constructor; `undefined`/absent fields are
modelled with `Option`.  JavaScript truthiness for the `||` and `??`
operators is modelled explicitly (`0`, `""`, `undefined`, `null` and `NaN`
are falsy).  Infinite JS numbers are not modelled (no claim involves them).
-/

/-- A JavaScript value in an `any`-typed slot that the service reads
numerically: a finite number, the number `NaN`, a string, `null`, or
`undefined` (other object values behave like `null` in `safeParseNumber`,
falling through to the final `return 0`). -/
inductive JSVal where
  | num (q : ℚ)
  | nanv
  | str (s : String)
  | nullv
  | undef
deriving DecidableEq

/-- JS whitespace skipped by `parseFloat`. -/
def isJsSpace (c : Char) : Bool :=
  c == ' ' || c == '\t' || c == '\n' || c == '\r'

/-- Value of a list of decimal digit characters. -/
def digitsToNat (ds : List Char) : ℕ :=
  ds.foldl (fun a c => 10 * a + (c.toNat - 48)) 0

/-- `10 ^ e` in `ℚ` for an integer exponent, via `ℕ` powers (kept away from
`Monoid.zpow` so terms stay structurally simple). -/
def pow10 (e : ℤ) : ℚ :=
  match e with
  | .ofNat n => ((10 ^ n : ℕ) : ℚ)
  | .negSucc n => 1 / ((10 ^ (n + 1) : ℕ) : ℚ)

/-- Exponent part of a JS float literal: optional sign then digits; an `e`
with no following digits contributes exponent 0 (JS `parseFloat` ignores a
dangling exponent marker). -/
def parseExponent (t : List Char) : ℤ :=
  let p : Bool × List Char :=
    match t with
    | '-' :: u => (true, u)
    | '+' :: u => (false, u)
    | _ => (false, t)
  let ds := p.2.takeWhile Char.isDigit
  if ds.isEmpty then 0
  else if p.1 then -(digitsToNat ds : ℤ) else (digitsToNat ds : ℤ)

/-- Model of JavaScript `Number.parseFloat`: skip leading whitespace, parse
an optional sign, a decimal mantissa and an optional exponent, reading the
longest valid numeric prefix; `none` models a `NaN` result (no digits). -/
def parseFloat (s : String) : Option ℚ :=
  let l := s.data.dropWhile isJsSpace
  let sgn : Bool × List Char :=
    match l with
    | '-' :: t => (true, t)
    | '+' :: t => (false, t)
    | _ => (false, l)
  let intDs := sgn.2.takeWhile Char.isDigit
  let r1 := sgn.2.dropWhile Char.isDigit
  let frac : List Char × List Char :=
    match r1 with
    | '.' :: t => (t.takeWhile Char.isDigit, t.dropWhile Char.isDigit)
    | _ => ([], r1)
  if intDs.isEmpty && frac.1.isEmpty then none
  else
    let mant : ℚ :=
      (digitsToNat intDs : ℚ) + (digitsToNat frac.1 : ℚ) / ((10 ^ frac.1.length : ℕ) : ℚ)
    let e : ℤ :=
      match frac.2 with
      | 'e' :: t => parseExponent t
      | 'E' :: t => parseExponent t
      | _ => 0
    some ((if sgn.1 then -mant else mant) * pow10 e)

/-- `safeParseNumber` from `algolia.service.ts`: a number is returned
unchanged (including `NaN`, modelled as `none`), a string is run through
`parseFloat` with a `NaN` result coerced to 0, and anything else yields 0. -/
def safeParseNumber : JSVal → Option ℚ
  | .num q => some q
  | .nanv => none
  | .str s =>
    match parseFloat s with
    | none => some 0
    | some q => some q
  | .nullv => some 0
  | .undef => some 0

/-- The `x || 0` applied to `safeParseNumber`'s result: `NaN` becomes 0;
a zero result stays 0, so this is just `getD 0`. -/
def orZero (x : Option ℚ) : ℚ :=
  match x with
  | none => 0
  | some q => q

/-- JS `a || b` for a possibly-absent string `a`: `undefined` and `""` are
falsy. -/
def jsOrS (a : Option String) (b : String) : String :=
  match a with
  | none => b
  | some s => if s = "" then b else s

/-- JS `a || b` for a possibly-absent number `a`: `undefined` and `0` are
falsy. -/
def truthyOrQ (a : Option ℚ) (b : ℚ) : ℚ :=
  match a with
  | none => b
  | some q => if q = 0 then b else q

/-- Input to `safeParseDate`: a string (with a flag recording whether
`new Date(value)` parses), a `Date` object (with its ISO rendering and a
validity flag), or anything else. -/
inductive DateVal where
  | str (s : String) (valid : Bool)
  | date (iso : String) (valid : Bool)
  | other
deriving DecidableEq

/-- `safeParseDate` from `algolia.service.ts`; `now` is the ISO rendering of
the current time, used for invalid/missing dates. -/
def safeParseDate (now : String) : DateVal → String
  | .str s true => s
  | .str _ false => now
  | .date iso true => iso
  | .date _ false => now
  | .other => now

/-- A `categories` entry as read by `safeExtractArray(product.categories, "name")`;
`name` is `none` when the entry is not an object or lacks the property. -/
structure Category where
  name : Option String
deriving DecidableEq

/-- A `tags` entry as read by `safeExtractArray(product.tags, "value")`. -/
structure Tag where
  value : Option String
deriving DecidableEq

/-- An entry of `variant.prices`. `amount` is `any`-typed at runtime (the
transformer runs it through `safeParseNumber`). -/
structure Price where
  amount : JSVal
  currency_code : Option String
deriving DecidableEq

/-- An entry of `variant.options`: `option?.title` and `value`. -/
structure VOption where
  option_title : Option String
  value : Option String
deriving DecidableEq

/-- An inventory item as summed by the sync script's remote lookup
(`item.stocked_quantity || item.available_quantity || 0`). -/
structure SyncInvItem where
  stocked_quantity : Option ℚ
  available_quantity : Option ℚ
deriving DecidableEq

/-- `ProductVariant` from `types/algolia.ts`, restricted to the fields the
service and sync script read.  `inventory_items` is declared on the type but
never read by `transformProductToRecord`. -/
structure ProductVariant where
  id : String
  title : Option String
  sku : Option String
  inventory_quantity : JSVal
  inventory_items : Option (List SyncInvItem)
  prices : Option (List Price)
  options : Option (List VOption)
deriving DecidableEq

/-- `Product` from `types/algolia.ts`, restricted to the fields the service
reads.  A missing (`undefined`) string field is `none`; `id` and `title` are
declared required and are modelled as strings, with `""` playing the role of
a falsy value in the validators. -/
structure Product where
  id : String
  title : String
  handle : Option String
  status : Option String
  thumbnail : Option String
  created_at : DateVal
  updated_at : DateVal
  categories : Option (List Category)
  tags : Option (List Tag)
  variants : Option (List ProductVariant)
deriving DecidableEq

/-- `AlgoliaProductRecord` from `types/algolia.ts` (the fields written by
`transformProductToRecord`; `option_name`/`option_value` are optional). -/
structure AlgoliaProductRecord where
  objectID : String
  id : String
  product_id : String
  variant_id : String
  product_title : String
  variant_title : String
  sku : String
  price : ℚ
  currency_code : String
  stocked_quantity : ℚ
  created_at : String
  updated_at : String
  status : String
  handle : String
  thumbnail : String
  categories : List String
  tags : List String
  option_name : Option String
  option_value : Option String
deriving DecidableEq

/-- `validateProduct` from `algolia.service.ts`: requires a truthy `id`,
a truthy `title` and a non-empty `variants` array. -/
def validateProduct (p : Product) : Bool :=
  !(p.id == "") && !(p.title == "") && !(p.variants.getD []).isEmpty

/-- `validateVariant` from `algolia.service.ts`: requires a truthy `id`. -/
def validateVariant (v : ProductVariant) : Bool :=
  !(v.id == "")

/-- `validateAlgoliaRecord` from `algolia.service.ts`: requires truthy
`objectID` and `product_title`. -/
def validateAlgoliaRecord (r : AlgoliaProductRecord) : Bool :=
  !(r.objectID == "") && !(r.product_title == "")

/-- `safeExtractArray` from `algolia.service.ts`, applied to the projected
property of each entry: keep entries whose property is present and truthy,
convert to string (identity here, the property is a string), then drop
whitespace-only values. -/
def safeExtractArray (items : List (Option String)) : List String :=
  (items.filterMap fun o =>
    match o with
    | some s => if s = "" then none else some s
    | none => none).filter fun s => !(s.trim == "")

/-- `variant.prices?.[0]?.amount`. -/
def firstPriceAmount (v : ProductVariant) : JSVal :=
  match v.prices with
  | none => .undef
  | some [] => .undef
  | some (p :: _) => p.amount

/-- `variant.prices?.[0]?.currency_code`. -/
def firstPriceCurrency (v : ProductVariant) : Option String :=
  match v.prices with
  | none => none
  | some [] => none
  | some (p :: _) => p.currency_code

/-- `transformProductToRecord` from `algolia.service.ts`.  Throws (models as
`Except.error`) when `product.id` or `variant.id` is falsy; otherwise builds
the flat record keyed `{product.id}_{variant.id}`.  `now` stands for the
current time used by `safeParseDate` for invalid dates. -/
def transformProductToRecord (now : String) (product : Product) (variant : ProductVariant) :
    Except String AlgoliaProductRecord :=
  if product.id = "" then .error ("Missing product.id for " ++ product.title)
  else if variant.id = "" then .error ("Missing variant.id for product " ++ product.id)
  else
    let base : AlgoliaProductRecord :=
      { objectID := product.id ++ "_" ++ variant.id
        id := product.id ++ "_" ++ variant.id
        product_id := product.id
        variant_id := variant.id
        product_title := product.title
        variant_title := jsOrS variant.title product.title
        sku := jsOrS variant.sku ""
        price := orZero (safeParseNumber (firstPriceAmount variant))
        currency_code := jsOrS (firstPriceCurrency variant) "usd"
        stocked_quantity := orZero (safeParseNumber variant.inventory_quantity)
        created_at := safeParseDate now product.created_at
        updated_at := safeParseDate now product.updated_at
        status := jsOrS product.status "draft"
        handle := jsOrS product.handle ""
        thumbnail := jsOrS product.thumbnail ""
        categories := safeExtractArray ((product.categories.getD []).map Category.name)
        tags := safeExtractArray ((product.tags.getD []).map Tag.value)
        option_name := none
        option_value := none }
    match variant.options with
    | some (o :: _) =>
      .ok { base with
              option_name := some (jsOrS o.option_title "")
              option_value := some (jsOrS o.value "") }
    | _ => .ok base

example :
    (transformProductToRecord "now"
      { id := "p1", title := "Blue T-Shirt!!", handle := none, status := some "published",
        thumbnail := none, created_at := .other, updated_at := .other,
        categories := none, tags := none, variants := none }
      { id := "v1", title := none, sku := none, inventory_quantity := .num 7,
        inventory_items := none, prices := some [{ amount := .num 250, currency_code := some "inr" }],
        options := none }).toOption.map (fun r => (r.objectID, r.handle, r.price, r.stocked_quantity))
      = some ("p1_v1", "", 250, 7) := by
  decide

example : parseFloat "abc" = none := by decide

example : safeParseNumber (.str "abc") = some 0 := by decide

/-! ## Batched indexing (`indexAlgoliaRecords`) -/

/-- The `for (let i = 0; i < validRecords.length; i += batchSize)` loop of
`indexAlgoliaRecords` slices the valid records into consecutive chunks of at
most 1000 (`batchSize` is the constant 1000 in the source). -/
def chunks1000 (l : List AlgoliaProductRecord) : List (List AlgoliaProductRecord) :=
  if l = [] then []
  else l.take 1000 :: chunks1000 (l.drop 1000)
termination_by l.length
decreasing_by
  simp only [List.length_drop]
  have : 0 < l.length := List.length_pos.mpr (by assumption)
  omega

/-- Outcome of a run of the batch loop: the chunks passed to
`client.saveObjects` (in order), the chunks whose save succeeded, and
whether the whole call returned normally (`false` = an error was thrown to
the caller). -/
structure IndexRunOutcome where
  attempted : List (List AlgoliaProductRecord)
  committed : List (List AlgoliaProductRecord)
  ok : Bool
deriving DecidableEq

/-- The batch loop of `indexAlgoliaRecords`: chunks are saved in order; a
failing `saveObjects` call re-throws, so no later chunk is attempted and
earlier chunks stay committed. `saveOk` models the engine accepting or
rejecting a `saveObjects` call. -/
def runBatches (saveOk : List AlgoliaProductRecord → Bool) :
    List (List AlgoliaProductRecord) → IndexRunOutcome
  | [] => ⟨[], [], true⟩
  | c :: cs =>
    if saveOk c then
      let rest := runBatches saveOk cs
      ⟨c :: rest.attempted, c :: rest.committed, rest.ok⟩
    else ⟨[c], [], false⟩

/-- `indexAlgoliaRecords` from `algolia.service.ts`: an empty input returns
immediately; otherwise records failing `validateAlgoliaRecord` are dropped,
and if none survive the call returns without touching the engine; the
survivors are saved in chunks of 1000. -/
def indexAlgoliaRecords (saveOk : List AlgoliaProductRecord → Bool)
    (records : List AlgoliaProductRecord) : IndexRunOutcome :=
  if records.isEmpty then ⟨[], [], true⟩
  else
    let validRecords := records.filter validateAlgoliaRecord
    if validRecords.isEmpty then ⟨[], [], true⟩
    else runBatches saveOk (chunks1000 validRecords)

/-! ## Index state semantics (delete / update) -/

/-- Modelled from the spec: the search engine's `saveObjects` upserts — a
saved record replaces any indexed record with the same `objectID` (the index
is the only shared mutable state, §5). -/
def upsertRecords (idx : List AlgoliaProductRecord) (recs : List AlgoliaProductRecord) :
    List AlgoliaProductRecord :=
  idx.filter (fun r => !(recs.any fun n => n.objectID == r.objectID)) ++ recs

/-- `deleteProduct` from `algolia.service.ts`, as an index-state transformer:
search the index for records whose `product_id` matches (the engine is asked
for at most `hitsPerPage: 1000` hits), then delete the returned object ids. -/
def deleteProductIndex (idx : List AlgoliaProductRecord) (productId : String) :
    List AlgoliaProductRecord :=
  let hits := (idx.filter fun r => r.product_id == productId).take 1000
  let objectIDs := hits.map AlgoliaProductRecord.objectID
  idx.filter fun r => !(objectIDs.contains r.objectID)

/-- The records `indexProducts` builds for one (already validated) product:
each variant passing `validateVariant` is transformed, and a transform
failure skips just that variant. -/
def productRecords (now : String) (p : Product) : List AlgoliaProductRecord :=
  (p.variants.getD []).filterMap fun v =>
    if validateVariant v then (transformProductToRecord now p v).toOption else none

/-- The records `indexProducts(products)` accumulates: invalid products are
skipped, valid ones contribute one record per valid variant. -/
def indexProductsRecords (now : String) (ps : List Product) : List AlgoliaProductRecord :=
  (ps.filter validateProduct).flatMap (productRecords now)

/-- `updateProduct` from `algolia.service.ts`, as an index-state
transformer: validation failure throws; otherwise the existing records for
`product.id` are deleted first, and only then is the freshly transformed
variant set indexed (via `indexProducts` → `indexAlgoliaRecords`, which
drops records failing `validateAlgoliaRecord` before the upsert). -/
def updateProductIndex (now : String) (idx : List AlgoliaProductRecord) (product : Product) :
    Except String (List AlgoliaProductRecord) :=
  if !validateProduct product then
    .error ("Product validation failed for product " ++ product.id)
  else
    let afterDelete := deleteProductIndex idx product.id
    let records := indexProductsRecords now [product]
    .ok (upsertRecords afterDelete (records.filter validateAlgoliaRecord))

/-! ## Query service (`search`) -/

/-- `SearchFilters` from `types/algolia.ts`. -/
structure SearchFilters where
  category : Option String := none
  currency_code : Option String := none
  price_min : Option ℚ := none
  price_max : Option ℚ := none
  in_stock : Option Bool := none
  tags : Option (List String) := none
deriving DecidableEq

/-- `Number.MAX_SAFE_INTEGER`. -/
def maxSafeInteger : ℚ := 9007199254740991

/-- One entry of the `filterArray` built by `search`: each constructor
models the corresponding filter string the code pushes
(`categories:"{c}"`, `currency_code:{c}`, `price:{lo} TO {hi}`,
`stocked_quantity > 0`, the parenthesized OR of `tags:"{t}"`, and
`status:published`). -/
inductive FilterClause where
  | categoryEq (c : String)
  | currencyEq (c : String)
  | priceRange (lo hi : ℚ)
  | inStock
  | tagsAny (ts : List String)
  | statusPublished
deriving DecidableEq

/-- Modelled from the spec: the search engine's semantics for one filter
clause against an indexed record (numeric range filters are inclusive,
facet filters are exact matches; the engine is an external collaborator,
§6). -/
def clauseSat (r : AlgoliaProductRecord) : FilterClause → Bool
  | .categoryEq c => r.categories.contains c
  | .currencyEq c => r.currency_code == c
  | .priceRange lo hi => decide (lo ≤ r.price) && decide (r.price ≤ hi)
  | .inStock => decide (0 < r.stocked_quantity)
  | .tagsAny ts => ts.any fun t => r.tags.contains t
  | .statusPublished => r.status == "published"

/-- The `filterArray` built by `search` in `algolia.service.ts`, in push
order.  A price clause appears whenever `price_min` or `price_max` is
defined, with falsy bounds (`undefined` or `0`) replaced by `0` and
`Number.MAX_SAFE_INTEGER`; `status:published` is always pushed last. -/
def buildFilterClauses (filters : SearchFilters) : List FilterClause :=
  (match filters.category with
   | some c => [FilterClause.categoryEq c]
   | none => []) ++
  (match filters.currency_code with
   | some c => [FilterClause.currencyEq c]
   | none => []) ++
  (if filters.price_min ≠ none ∨ filters.price_max ≠ none then
    [FilterClause.priceRange (truthyOrQ filters.price_min 0)
      (truthyOrQ filters.price_max maxSafeInteger)]
   else []) ++
  (if filters.in_stock = some true then [FilterClause.inStock] else []) ++
  (match filters.tags with
   | some ts => if 0 < ts.length then [FilterClause.tagsAny ts] else []
   | none => []) ++
  [FilterClause.statusPublished]

/-- The request `search` sends to `client.searchSingleIndex`. -/
structure EngineRequest where
  query : String
  page : ℕ
  hitsPerPage : ℕ
  filters : List FilterClause
deriving DecidableEq

/-- The engine's response as read by `search`; every field the code guards
with `??` (or passes through unguarded) is optional here. -/
structure EngineResponse where
  hits : List AlgoliaProductRecord
  nbHits : Option ℕ
  page : Option ℕ
  nbPages : Option ℕ
  hitsPerPage : Option ℕ
  processingTimeMS : Option ℚ
  query : Option String

/-- The `AlgoliaSearchResponse` value `search` returns.  `processingTimeMS`
and `query` are copied from the engine response without any default, so they
stay absent when the engine omits them. -/
structure SearchResult where
  hits : List AlgoliaProductRecord
  nbHits : ℕ
  page : ℕ
  nbPages : ℕ
  hitsPerPage : ℕ
  processingTimeMS : Option ℚ
  query : Option String

/-- The request `search query filters page hitsPerPage` issues. -/
def searchRequest (query : String) (filters : SearchFilters) (page hitsPerPage : ℕ) :
    EngineRequest :=
  ⟨query, page, hitsPerPage, buildFilterClauses filters⟩

/-- `search` from `algolia.service.ts`: build the filter array, call the
engine, and normalize the response (`?? 0` on `nbHits`, `page`, `nbPages`,
`?? hitsPerPage` on `hitsPerPage`, `processingTimeMS` and `query` passed
through). -/
def search (engine : EngineRequest → EngineResponse) (query : String)
    (filters : SearchFilters) (page hitsPerPage : ℕ) : SearchResult :=
  let results := engine (searchRequest query filters page hitsPerPage)
  { hits := results.hits
    nbHits := results.nbHits.getD 0
    page := results.page.getD 0
    nbPages := results.nbPages.getD 0
    hitsPerPage := results.hitsPerPage.getD hitsPerPage
    processingTimeMS := results.processingTimeMS
    query := results.query }

/-! ## The sync script (`scripts/sync-products.ts`) -/

/-- Result of the sync script's `axios.get(.../variants/{id}/inventory)`
call: either the `response.data.variant` object with its optional
`inventory` array, or any thrown error (network/parse). -/
inductive FetchResult where
  | ok (inventory : Option (List SyncInvItem))
  | err
deriving DecidableEq

/-- `getVariantInventoryQuantity` from `scripts/sync-products.ts`, applied
to the (modelled) outcome of its HTTP call: if the response carries a
non-empty `inventory` array, sum `item.stocked_quantity ||
item.available_quantity || 0` over it; otherwise — and on any error — 0. -/
def getVariantInventoryQuantity : FetchResult → ℚ
  | .err => 0
  | .ok none => 0
  | .ok (some items) =>
    if 0 < items.length then
      items.foldl (fun sum item =>
        sum + truthyOrQ item.stocked_quantity (truthyOrQ item.available_quantity 0)) 0
    else 0

/-- A price entry as read by the sync script (`variant.prices?.[0]`). -/
structure SyncPrice where
  amount : Option ℚ
  currency_code : Option String
deriving DecidableEq

/-- An option entry as read by the sync script
(`firstOption.option?.title`, `firstOption.option_id`, `firstOption.value`). -/
structure SyncOption where
  option_title : Option String
  option_id : Option String
  value : Option String
deriving DecidableEq

/-- A category entry as read by the sync script (`cat.name || cat.title`). -/
structure SyncCategory where
  name : Option String
  title : Option String
deriving DecidableEq

/-- A tag entry as read by the sync script (`tag.value || tag.name`). -/
structure SyncTag where
  value : Option String
  name : Option String
deriving DecidableEq

/-- A variant as the sync script reads it.  `inventory_quantity` and
`inventory_items` are present on the fetched data but the script resolves
`stocked_quantity` exclusively through `getVariantInventoryQuantity`'s
remote lookup. -/
structure SyncVariant where
  id : String
  sku : Option String
  inventory_quantity : Option ℚ
  inventory_items : Option (List SyncInvItem)
  prices : Option (List SyncPrice)
  options : Option (List SyncOption)
deriving DecidableEq

/-- A product as the sync script reads it (`created_at`/`updated_at` are
copied into records verbatim). -/
structure SyncProduct where
  id : String
  title : String
  handle : Option String
  thumbnail : Option String
  created_at : String
  updated_at : String
  categories : Option (List SyncCategory)
  tags : Option (List SyncTag)
  variants : Option (List SyncVariant)
deriving DecidableEq

/-- The `_inventory_debug` payload attached to variant records. -/
structure InvDebug where
  variant_id : String
  api_response : String
deriving DecidableEq

/-- The object literal the sync script pushes onto `algoliaRecords` (both
branches share this shape; the zero-variant branch omits
`_inventory_debug`, modelled as `none`). -/
structure SyncRecord where
  objectID : String
  product_title : String
  variant_title : String
  sku : String
  price : ℚ
  currency_code : String
  option_name : String
  option_value : String
  stocked_quantity : ℚ
  in_stock : Bool
  category : String
  categories : List String
  tags : List String
  product_handle : Option String
  product_thumbnail : String
  status : String
  created_at : String
  updated_at : String
  inventoryDebug : Option InvDebug
deriving DecidableEq

/-- The sync script's zero-variant branch: a default record keyed
`` `${product.id}-default` ``. -/
def mkDefaultSyncRecord (product : SyncProduct) : SyncRecord :=
  { objectID := product.id ++ "-default"
    product_title := product.title
    variant_title := product.title
    sku := jsOrS product.handle ""
    price := 0
    currency_code := "inr"
    option_name := ""
    option_value := ""
    stocked_quantity := 0
    in_stock := false
    category := jsOrS ((product.categories.getD []).head?.bind SyncCategory.name) ""
    categories := (product.categories.getD []).map fun cat =>
      jsOrS cat.name (jsOrS cat.title "")
    tags := (product.tags.getD []).map fun tag =>
      jsOrS tag.value (jsOrS tag.name "")
    product_handle := product.handle
    product_thumbnail := jsOrS product.thumbnail ""
    status := "published"
    created_at := product.created_at
    updated_at := product.updated_at
    inventoryDebug := none }

/-- `variant.options`-derived `option_name`
(`firstOption.option?.title || firstOption.option_id || ""`). -/
def syncOptionName (variant : SyncVariant) : String :=
  match variant.options with
  | some (o :: _) => jsOrS o.option_title (jsOrS o.option_id "")
  | _ => ""

/-- `firstOption.value || ""`. -/
def syncOptionValue (variant : SyncVariant) : String :=
  match variant.options with
  | some (o :: _) => jsOrS o.value ""
  | _ => ""

/-- The sync script's per-variant record, keyed
`` `${product.id}-${variant.id}` ``; `stocked_quantity` comes from the
remote lookup (`fetch` models the per-variant-id HTTP response). -/
def mkVariantSyncRecord (fetch : String → FetchResult) (product : SyncProduct)
    (variant : SyncVariant) : SyncRecord :=
  let primaryAmount : Option ℚ :=
    match variant.prices with
    | some (p :: _) => p.amount
    | _ => none
  let primaryCurrency : Option String :=
    match variant.prices with
    | some (p :: _) => p.currency_code
    | _ => none
  let optValue := syncOptionValue variant
  let stockedQuantity := getVariantInventoryQuantity (fetch variant.id)
  { objectID := product.id ++ "-" ++ variant.id
    product_title := product.title
    variant_title :=
      if optValue ≠ "" then product.title ++ " - " ++ optValue else product.title
    sku := jsOrS variant.sku ""
    price := truthyOrQ primaryAmount 0
    currency_code := jsOrS primaryCurrency "inr"
    option_name := syncOptionName variant
    option_value := optValue
    stocked_quantity := stockedQuantity
    in_stock := decide (0 < stockedQuantity)
    category := jsOrS ((product.categories.getD []).head?.bind SyncCategory.name)
      (jsOrS ((product.categories.getD []).head?.bind SyncCategory.title) "")
    categories := (product.categories.getD []).map fun cat =>
      jsOrS cat.name (jsOrS cat.title "")
    tags := (product.tags.getD []).map fun tag =>
      jsOrS tag.value (jsOrS tag.name "")
    product_handle := product.handle
    product_thumbnail := jsOrS product.thumbnail ""
    status := "published"
    created_at := product.created_at
    updated_at := product.updated_at
    inventoryDebug := some
      ⟨variant.id, "Fetched from /admin/variants/" ++ variant.id ++ "/inventory"⟩ }

/-- The records the sync loop pushes for one product: the default record
when `!product.variants || product.variants.length === 0`, else one record
per variant. -/
def syncRecordsFor (fetch : String → FetchResult) (product : SyncProduct) : List SyncRecord :=
  match product.variants.getD [] with
  | [] => [mkDefaultSyncRecord product]
  | vs => vs.map (mkVariantSyncRecord fetch product)

/-- The full `algoliaRecords` list `syncPublishedProducts` builds from the
fetched published products before calling `indexAlgoliaRecords`. -/
def syncPublishedProductsRecords (fetch : String → FetchResult)
    (products : List SyncProduct) : List SyncRecord :=
  products.flatMap (syncRecordsFor fetch)

/-- The object ids `syncRecordsFor` produces for one product. -/
def syncKeysFor (product : SyncProduct) : List String :=
  match product.variants.getD [] with
  | [] => [product.id ++ "-default"]
  | vs => vs.map fun v => product.id ++ "-" ++ v.id

/-! ## Helper lemmas about composite keys -/

theorem hyphen_split {a c : List Char} {b d : List Char} (ha : '-' ∉ a) (hc : '-' ∉ c)
    (h : a ++ '-' :: b = c ++ '-' :: d) : a = c ∧ b = d := by
  induction a generalizing c with
  | nil =>
    cases c with
    | nil => simpa using h
    | cons x xs =>
      simp only [List.nil_append, List.cons_append, List.cons.injEq] at h
      exact absurd (h.1 ▸ List.mem_cons_self x xs) hc
  | cons y ys ih =>
    cases c with
    | nil =>
      simp only [List.cons_append, List.nil_append, List.cons.injEq] at h
      exact absurd (h.1.symm ▸ List.mem_cons_self y ys) ha
    | cons x xs =>
      simp only [List.cons_append, List.cons.injEq] at h
      have ha2 : '-' ∉ ys := fun hm => ha (List.mem_cons_of_mem y hm)
      have hc2 : '-' ∉ xs := fun hm => hc (List.mem_cons_of_mem x hm)
      obtain ⟨h1, h2⟩ := ih ha2 hc2 h.2
      exact ⟨by rw [h.1, h1], h2⟩

theorem key_data (pid s : String) : (pid ++ "-" ++ s).data = pid.data ++ '-' :: s.data := by
  rw [String.data_append, String.data_append]
  simp [List.append_assoc]

theorem key_inj {pid qid s t : String} (hp : '-' ∉ pid.data) (hq : '-' ∉ qid.data)
    (h : pid ++ "-" ++ s = qid ++ "-" ++ t) : pid = qid ∧ s = t := by
  have hd : pid.data ++ '-' :: s.data = qid.data ++ '-' :: t.data := by
    rw [← key_data, ← key_data, h]
  obtain ⟨h1, h2⟩ := hyphen_split hp hq hd
  exact ⟨String.ext h1, String.ext h2⟩

theorem string_append_left_cancel {a b c : String} (h : a ++ b = a ++ c) : b = c := by
  have hd : a.data ++ b.data = a.data ++ c.data := by
    rw [← String.data_append, ← String.data_append, h]
  exact String.ext (List.append_cancel_left hd)

theorem key_default (pid : String) : pid ++ "-default" = pid ++ "-" ++ "default" := by
  rw [String.append_assoc]
  rfl

/-- Every key of a product is its id, a hyphen, then a hyphen-free-or-not
suffix. -/
theorem mem_syncKeysFor {q : SyncProduct} {k : String} (hk : k ∈ syncKeysFor q) :
    ∃ s, k = q.id ++ "-" ++ s := by
  unfold syncKeysFor at hk
  rcases hvs : q.variants.getD [] with _ | ⟨v, vs⟩
  · rw [hvs] at hk
    simp only [List.mem_singleton] at hk
    exact ⟨"default", by rw [hk, key_default]⟩
  · rw [hvs] at hk
    obtain ⟨w, _, hw⟩ := List.mem_map.mp hk
    exact ⟨w.id, hw.symm⟩

theorem count_syncKeysFor_ne (q : SyncProduct) {key pid s : String}
    (hkey : key = pid ++ "-" ++ s) (hpid : '-' ∉ pid.data)
    (hqid : '-' ∉ q.id.data) (hne : q.id ≠ pid) :
    (syncKeysFor q).count key = 0 := by
  refine List.count_eq_zero.mpr fun hk => ?_
  obtain ⟨t, ht⟩ := mem_syncKeysFor hk
  rw [hkey] at ht
  exact hne (key_inj hpid hqid ht).1.symm

theorem count_syncKeysFor_self (p : SyncProduct) (v : SyncVariant)
    (hv : v ∈ p.variants.getD [])
    (hnd : ((p.variants.getD []).map SyncVariant.id).Nodup) :
    (syncKeysFor p).count (p.id ++ "-" ++ v.id) = 1 := by
  rcases hvs : p.variants.getD [] with _ | ⟨w, ws⟩
  · rw [hvs] at hv; cases hv
  · rw [hvs] at hv hnd
    have hkeys : syncKeysFor p
        = ((w :: ws).map SyncVariant.id).map (fun s => p.id ++ "-" ++ s) := by
      unfold syncKeysFor
      rw [hvs, List.map_map]
      rfl
    have hinj : Function.Injective (fun s => p.id ++ "-" ++ s) := by
      intro x y hxy
      exact string_append_left_cancel hxy
    rw [hkeys]
    refine List.count_eq_one_of_mem (hnd.map hinj) ?_
    exact List.mem_map.mpr ⟨v.id, List.mem_map.mpr ⟨v, hv, rfl⟩, rfl⟩

theorem count_flatMap_keys_zero (l : List SyncProduct) {key pid s : String}
    (hkey : key = pid ++ "-" ++ s) (hpid : '-' ∉ pid.data)
    (h : ∀ q ∈ l, '-' ∉ q.id.data ∧ q.id ≠ pid) :
    (l.flatMap syncKeysFor).count key = 0 := by
  induction l with
  | nil => simp
  | cons q rest ih =>
    rw [List.flatMap_cons, List.count_append]
    have hq := h q (List.mem_cons_self q rest)
    rw [count_syncKeysFor_ne q hkey hpid hq.1 hq.2,
      ih fun q' hq' => h q' (List.mem_cons_of_mem q hq')]

theorem count_syncKeys (ps : List SyncProduct) (p : SyncProduct) (hp : p ∈ ps)
    (hids : (ps.map SyncProduct.id).Nodup)
    (hsep : ∀ q ∈ ps, '-' ∉ q.id.data)
    {key s : String} (hkey : key = p.id ++ "-" ++ s)
    (hself : (syncKeysFor p).count key = 1) :
    (ps.flatMap syncKeysFor).count key = 1 := by
  induction ps with
  | nil => cases hp
  | cons q rest ih =>
    rw [List.map_cons, List.nodup_cons] at hids
    rw [List.flatMap_cons, List.count_append]
    have hpsep : '-' ∉ p.id.data := hsep p hp
    rcases List.mem_cons.mp hp with hpq | hprest
    · subst hpq
      rw [hself]
      have hzero : (rest.flatMap syncKeysFor).count key = 0 := by
        refine count_flatMap_keys_zero rest hkey hpsep fun q' hq' => ?_
        refine ⟨hsep q' (List.mem_cons_of_mem p hq'), fun hid => ?_⟩
        exact hids.1 (hid ▸ List.mem_map.mpr ⟨q', hq', rfl⟩)
      rw [hzero]
    · have hne : q.id ≠ p.id := fun hid =>
        hids.1 (hid ▸ List.mem_map.mpr ⟨p, hprest, rfl⟩)
      rw [count_syncKeysFor_ne q hkey hpsep (hsep q (List.mem_cons_self q rest)) hne]
      rw [ih hprest hids.2 (fun q' hq' => hsep q' (List.mem_cons_of_mem q hq'))]

/-- The object ids of the records built for one product. -/
theorem map_objectID_syncRecordsFor (fetch : String → FetchResult) (p : SyncProduct) :
    (syncRecordsFor fetch p).map SyncRecord.objectID = syncKeysFor p := by
  unfold syncRecordsFor syncKeysFor
  rcases p.variants.getD [] with _ | ⟨v, vs⟩
  · rfl
  · rw [List.map_map]
    rfl

/-- The object ids of the whole sync output. -/
theorem map_objectID_syncRecords (fetch : String → FetchResult) (ps : List SyncProduct) :
    (syncPublishedProductsRecords fetch ps).map SyncRecord.objectID = ps.flatMap syncKeysFor := by
  unfold syncPublishedProductsRecords
  rw [List.map_flatMap]
  exact List.flatMap_congr fun p _ => map_objectID_syncRecordsFor fetch p

/-- Counting records by object id reduces to counting keys. -/
theorem length_filter_syncRecords (fetch : String → FetchResult) (ps : List SyncProduct)
    (key : String) :
    ((syncPublishedProductsRecords fetch ps).filter fun r => r.objectID == key).length
      = (ps.flatMap syncKeysFor).count key := by
  rw [← List.countP_eq_length_filter]
  have h1 : (syncPublishedProductsRecords fetch ps).countP (fun r => r.objectID == key)
      = ((syncPublishedProductsRecords fetch ps).map SyncRecord.objectID).countP
          (fun k => k == key) := by
    rw [List.countP_map]
    rfl
  rw [h1, map_objectID_syncRecords, List.count_eq_countP]

/-! ## Claim C1 -/

/-- A one-variant sync product used as concrete input. -/
def c1SyncProduct : SyncProduct :=
  ⟨"p1", "Tee", none, none, "2024-01-01", "2024-01-02", none, none,
    some [⟨"v1", none, none, none, none, none⟩]⟩

/-- A zero-variant sync product used as concrete input. -/
def c1SyncProductB : SyncProduct :=
  ⟨"p2", "Mug", none, none, "2024-01-01", "2024-01-02", none, none, some []⟩

/-- C1, counterexample: the sync script keys its records
`{product_id}-{variant_id}` with a hyphen, not `{product_id}_{variant_id}`:
for the one-product one-variant input the only record produced has objectID
`"p1-v1"`, and no record with id `"p1_v1"` exists. -/
theorem sync_composite_id_counterexample :
    ((syncPublishedProductsRecords (fun _ => FetchResult.err) [c1SyncProduct]).map
        SyncRecord.objectID = ["p1-v1"])
    ∧ ((syncPublishedProductsRecords (fun _ => FetchResult.err) [c1SyncProduct]).filter
        fun r => r.objectID == "p1_v1").length = 0 := by
  constructor
  · decide
  · decide

/-- C1 (amended): in the sync script each record is keyed by the composite
identifier `{product_id}-{variant_id}` (hyphen-separated; the underscore
format appears only in `transformProductToRecord`): when product ids are
pairwise distinct and hyphen-free and each product's variant ids are
distinct, every (product, variant) pair yields exactly one record with id
`{P.id}-{V.id}`, and every zero-variant product yields exactly one record
with id `{P.id}-default`. -/
theorem sync_composite_id_unique (fetch : String → FetchResult) (ps : List SyncProduct)
    (p : SyncProduct) (hp : p ∈ ps)
    (hids : (ps.map SyncProduct.id).Nodup)
    (hsep : ∀ q ∈ ps, '-' ∉ q.id.data)
    (hnd : ((p.variants.getD []).map SyncVariant.id).Nodup) :
    (∀ v ∈ p.variants.getD [],
      ((syncPublishedProductsRecords fetch ps).filter
        fun r => r.objectID == p.id ++ "-" ++ v.id).length = 1)
    ∧ (p.variants.getD [] = [] →
      ((syncPublishedProductsRecords fetch ps).filter
        fun r => r.objectID == p.id ++ "-default").length = 1) := by
  constructor
  · intro v hv
    rw [length_filter_syncRecords]
    exact count_syncKeys ps p hp hids hsep rfl (count_syncKeysFor_self p v hv hnd)
  · intro hempty
    rw [length_filter_syncRecords]
    refine count_syncKeys ps p hp hids hsep (key_default p.id) ?_
    unfold syncKeysFor
    rw [hempty]
    simp

/-- Witness for C1's theorem at the concrete two-product input (one product
with one variant, one with zero variants). -/
theorem sync_composite_id_unique_witness :
    (∀ v ∈ c1SyncProduct.variants.getD [],
      ((syncPublishedProductsRecords (fun _ => FetchResult.err)
          [c1SyncProduct, c1SyncProductB]).filter
        fun r => r.objectID == c1SyncProduct.id ++ "-" ++ v.id).length = 1)
    ∧ (c1SyncProduct.variants.getD [] = [] →
      ((syncPublishedProductsRecords (fun _ => FetchResult.err)
          [c1SyncProduct, c1SyncProductB]).filter
        fun r => r.objectID == c1SyncProduct.id ++ "-default").length = 1) :=
  sync_composite_id_unique (fun _ => FetchResult.err) [c1SyncProduct, c1SyncProductB]
    c1SyncProduct (by decide) (by decide) (by decide) (by decide)

/-! ## Claims C2-C4: the record transformer -/

/-- Field contents of a successfully transformed record, read off the
definition of `transformProductToRecord`. -/
theorem transform_ok_spec (now : String) (p : Product) (v : ProductVariant)
    (r : AlgoliaProductRecord) (h : transformProductToRecord now p v = .ok r) :
    r.objectID = p.id ++ "_" ++ v.id ∧ r.product_id = p.id ∧ r.variant_id = v.id
    ∧ r.product_title = p.title ∧ r.handle = jsOrS p.handle ""
    ∧ r.price = orZero (safeParseNumber (firstPriceAmount v))
    ∧ r.stocked_quantity = orZero (safeParseNumber v.inventory_quantity) := by
  simp only [transformProductToRecord] at h
  split at h
  · cases h
  · split at h
    · cases h
    · split at h
      · injection h with h2
        subst h2
        exact ⟨rfl, rfl, rfl, rfl, rfl, rfl, rfl⟩
      · injection h with h2
        subst h2
        exact ⟨rfl, rfl, rfl, rfl, rfl, rfl, rfl⟩

/-- A product with a title but no handle. -/
def c2Product : Product :=
  ⟨"p1", "Blue T-Shirt!!", none, some "published", none, .other, .other, none, none, none⟩

/-- A plain variant. -/
def c2Variant : ProductVariant :=
  ⟨"v1", none, none, .undef, none, none, none⟩

/-- C2, counterexample: for the product titled `"Blue T-Shirt!!"` with no
handle, `transformProductToRecord` emits the empty string as handle — not
the slug `"blue-t-shirt"` the claim requires (no slug generation exists in
the transformer). -/
theorem handle_slug_counterexample :
    ((transformProductToRecord "now" c2Product c2Variant).toOption.map
        AlgoliaProductRecord.handle = some "")
    ∧ ((transformProductToRecord "now" c2Product c2Variant).toOption.map
        AlgoliaProductRecord.handle ≠ some "blue-t-shirt") := by
  constructor
  · decide
  · decide

/-- C2 (amended): for every product whose handle is missing (or empty), the
transformed record's handle is the empty string — the transformer falls
back to `""`, not to a slug of the title. -/
theorem handle_fallback_empty (now : String) (p : Product) (v : ProductVariant)
    (r : AlgoliaProductRecord) (hmiss : p.handle = none ∨ p.handle = some "")
    (h : transformProductToRecord now p v = .ok r) : r.handle = "" := by
  have hh := (transform_ok_spec now p v r h).2.2.2.2.1
  rcases hmiss with hm | hm <;> rw [hm] at hh <;> simpa [jsOrS] using hh

/-- Witness for C2's amended theorem at the `"Blue T-Shirt!!"` product. -/
theorem handle_fallback_empty_witness :
    ∃ r, transformProductToRecord "now" c2Product c2Variant = .ok r ∧ r.handle = "" := by
  refine ⟨{ objectID := "p1_v1", id := "p1_v1", product_id := "p1", variant_id := "v1",
            product_title := "Blue T-Shirt!!", variant_title := "Blue T-Shirt!!",
            sku := "", price := 0, currency_code := "usd", stocked_quantity := 0,
            created_at := "now", updated_at := "now", status := "published",
            handle := "", thumbnail := "", categories := [], tags := [],
            option_name := none, option_value := none }, rfl, ?_⟩
  exact handle_fallback_empty "now" c2Product c2Variant _ (Or.inl rfl) rfl

/-- A variant whose source inventory quantity and price amount are negative
numbers. -/
def c3Variant : ProductVariant :=
  ⟨"v1", none, none, .num (-3), none, some [⟨.num (-5), some "eur"⟩], none⟩

/-- C3, counterexample: a negative source number passes straight through
`safeParseNumber` (the trailing `|| 0` only catches falsy values), so
`stocked_quantity = -3` and `price = -5` — not non-negative integers. -/
theorem price_nonneg_counterexample :
    ((transformProductToRecord "now" c2Product c3Variant).toOption.map
        (fun r => (r.stocked_quantity, r.price)) = some (-3, -5))
    ∧ ¬ ((0 : ℚ) ≤ -3) ∧ ¬ ((0 : ℚ) ≤ -5) := by
  refine ⟨by decide, by decide, by decide⟩

/-- C3 (amended): `price` and `stocked_quantity` are always well-formed
(finite, non-`NaN`) numbers and sources that cannot be parsed as a number —
unparsable strings, `NaN`, `null`, `undefined` — coerce to 0 rather than
propagating a fault; but a parsable numeric source passes through unchanged,
so the fields need not be non-negative integers. -/
theorem numeric_coercion_spec (now : String) (p : Product) (v : ProductVariant)
    (r : AlgoliaProductRecord) (h : transformProductToRecord now p v = .ok r) :
    (∀ s, v.inventory_quantity = .str s → parseFloat s = none → r.stocked_quantity = 0)
    ∧ (v.inventory_quantity = .nanv → r.stocked_quantity = 0)
    ∧ (v.inventory_quantity = .nullv ∨ v.inventory_quantity = .undef →
        r.stocked_quantity = 0)
    ∧ (∀ q, v.inventory_quantity = .num q → r.stocked_quantity = q)
    ∧ (∀ s, firstPriceAmount v = .str s → parseFloat s = none → r.price = 0)
    ∧ (∀ q, firstPriceAmount v = .num q → r.price = q) := by
  obtain ⟨-, -, -, -, -, hprice, hstock⟩ := transform_ok_spec now p v r h
  refine ⟨?_, ?_, ?_, ?_, ?_, ?_⟩
  · intro s hs hparse
    rw [hstock, hs]
    simp [safeParseNumber, hparse, orZero]
  · intro hs
    rw [hstock, hs]
    rfl
  · rintro (hs | hs) <;> rw [hstock, hs] <;> rfl
  · intro q hq
    rw [hstock, hq]
    rfl
  · intro s hs hparse
    rw [hprice, hs]
    simp [safeParseNumber, hparse, orZero]
  · intro q hq
    rw [hprice, hq]
    rfl

/-- A variant with an unparsable-string inventory quantity and a numeric
price amount. -/
def c3WitVariant : ProductVariant :=
  ⟨"v3", none, none, .str "abc", none, some [⟨.num 4, some "eur"⟩], none⟩

/-- Witness for C3's amended theorem: the unparsable `"abc"` quantity
coerces to 0 and the numeric price 4 passes through. -/
theorem numeric_coercion_spec_witness :
    ∃ r, transformProductToRecord "now" c2Product c3WitVariant = .ok r ∧
      ((∀ s, c3WitVariant.inventory_quantity = .str s → parseFloat s = none →
          r.stocked_quantity = 0)
       ∧ (c3WitVariant.inventory_quantity = .nanv → r.stocked_quantity = 0)
       ∧ (c3WitVariant.inventory_quantity = .nullv ∨ c3WitVariant.inventory_quantity = .undef →
           r.stocked_quantity = 0)
       ∧ (∀ q, c3WitVariant.inventory_quantity = .num q → r.stocked_quantity = q)
       ∧ (∀ s, firstPriceAmount c3WitVariant = .str s → parseFloat s = none → r.price = 0)
       ∧ (∀ q, firstPriceAmount c3WitVariant = .num q → r.price = q)) := by
  refine ⟨{ objectID := "p1_v3", id := "p1_v3", product_id := "p1", variant_id := "v3",
            product_title := "Blue T-Shirt!!", variant_title := "Blue T-Shirt!!",
            sku := "", price := 4, currency_code := "eur", stocked_quantity := 0,
            created_at := "now", updated_at := "now", status := "published",
            handle := "", thumbnail := "", categories := [], tags := [],
            option_name := none, option_value := none }, rfl, ?_⟩
  exact numeric_coercion_spec "now" c2Product c3WitVariant _ rfl

/-- A sync variant carrying both a direct `inventory_quantity` (5) and a
nested `inventory_items` list (summing to 3). -/
def c4SyncVariant : SyncVariant :=
  ⟨"v1", none, some 5, some [⟨some 3, none⟩], none, none⟩

/-- C4, counterexample: in the sync script the resolver ignores both
variant-local shapes and uses only the remote lookup — with the direct field
5 and the nested list 3 populated and the remote call failing, the resolved
`stocked_quantity` is 0, not the direct field's 5. -/
theorem inventory_precedence_counterexample :
    (mkVariantSyncRecord (fun _ => FetchResult.err) c1SyncProduct
        c4SyncVariant).stocked_quantity = 0
    ∧ c4SyncVariant.inventory_quantity = some 5
    ∧ (c4SyncVariant.inventory_items.getD []).map SyncInvItem.stocked_quantity = [some 3]
    ∧ ((0 : ℚ) ≠ 5) := by
  refine ⟨by decide, rfl, rfl, by decide⟩

/-- C4 (amended): in `transformProductToRecord` the direct
`inventory_quantity` field alone determines `stocked_quantity` (the nested
`inventory_items` list is never consulted, so when both are populated the
direct field wins); in the sync script, by contrast, both variant-local
inventory shapes are ignored and `stocked_quantity` comes solely from the
remote `getVariantInventoryQuantity` lookup. -/
theorem inventory_resolution_spec (now : String) (p : Product) (v : ProductVariant)
    (r : AlgoliaProductRecord) (q : ℚ) (hq : v.inventory_quantity = .num q)
    (h : transformProductToRecord now p v = .ok r)
    (fetch : String → FetchResult) (sp : SyncProduct) (sv : SyncVariant) :
    r.stocked_quantity = q
    ∧ ∀ dq items,
        (mkVariantSyncRecord fetch sp
          { sv with inventory_quantity := dq, inventory_items := items }).stocked_quantity
          = getVariantInventoryQuantity (fetch sv.id) := by
  refine ⟨?_, fun dq items => rfl⟩
  rw [(transform_ok_spec now p v r h).2.2.2.2.2.2, hq]
  rfl

/-- Witness for C4's amended theorem: direct field 5 wins in the
transformer; the sync record's quantity equals the (failing) remote
lookup's 0. -/
theorem inventory_resolution_spec_witness :
    ∃ r, transformProductToRecord "now" c2Product
        { c2Variant with
          inventory_quantity := .num 5
          inventory_items := some [⟨some 3, none⟩] } = .ok r ∧
      (r.stocked_quantity = 5
       ∧ ∀ dq items,
          (mkVariantSyncRecord (fun _ => FetchResult.err) c1SyncProduct
            { c4SyncVariant with
              inventory_quantity := dq
              inventory_items := items }).stocked_quantity
            = getVariantInventoryQuantity ((fun _ => FetchResult.err) c4SyncVariant.id)) := by
  refine ⟨{ objectID := "p1_v1", id := "p1_v1", product_id := "p1", variant_id := "v1",
            product_title := "Blue T-Shirt!!", variant_title := "Blue T-Shirt!!",
            sku := "", price := 0, currency_code := "usd", stocked_quantity := 5,
            created_at := "now", updated_at := "now", status := "published",
            handle := "", thumbnail := "", categories := [], tags := [],
            option_name := none, option_value := none }, rfl, ?_⟩
  exact inventory_resolution_spec "now" c2Product
    { c2Variant with inventory_quantity := .num 5, inventory_items := some [⟨some 3, none⟩] }
    _ 5 rfl rfl (fun _ => FetchResult.err) c1SyncProduct c4SyncVariant

/-! ## Claims C5 and C9: batched indexing -/

/-- Unfolding equation for `chunks1000`. -/
theorem chunks1000_eq (l : List AlgoliaProductRecord) :
    chunks1000 l = if l = [] then [] else l.take 1000 :: chunks1000 (l.drop 1000) := by
  rw [chunks1000]

/-- Every chunk the batch loop saves has at most 1000 records. -/
theorem chunks1000_length_le (n : ℕ) :
    ∀ l : List AlgoliaProductRecord, l.length ≤ n → ∀ d ∈ chunks1000 l, d.length ≤ 1000 := by
  induction n with
  | zero =>
    intro l hl d hd
    rw [List.length_eq_zero.mp (Nat.le_zero.mp hl)] at hd
    rw [chunks1000_eq] at hd
    simp at hd
  | succ n ih =>
    intro l hl d hd
    rw [chunks1000_eq] at hd
    by_cases hln : l = []
    · rw [if_pos hln] at hd
      cases hd
    · rw [if_neg hln] at hd
      rcases List.mem_cons.mp hd with hdt | hdr
      · rw [hdt]
        exact List.length_take_le 1000 l
      · refine ih (l.drop 1000) ?_ d hdr
        have hpos : 0 < l.length := List.length_pos.mpr hln
        simp only [List.length_drop]
        omega

/-- Chunking 2500 records yields exactly the sizes 1000, 1000, 500. -/
theorem chunks1000_2500 (l : List AlgoliaProductRecord) (h : l.length = 2500) :
    (chunks1000 l).map List.length = [1000, 1000, 500] := by
  have h1 : l ≠ [] := by
    intro he
    rw [he] at h
    simp at h
  have hd1 : (l.drop 1000).length = 1500 := by
    simp [h]
  have h2 : l.drop 1000 ≠ [] := by
    intro he
    rw [he] at hd1
    simp at hd1
  have hd2 : ((l.drop 1000).drop 1000).length = 500 := by
    simp only [List.length_drop]
    omega
  have h3 : (l.drop 1000).drop 1000 ≠ [] := by
    intro he
    rw [he] at hd2
    simp at hd2
  have hd3 : (((l.drop 1000).drop 1000).drop 1000) = [] := by
    refine List.drop_eq_nil_of_le ?_
    rw [hd2]
    norm_num
  rw [chunks1000_eq, if_neg h1, chunks1000_eq, if_neg h2, chunks1000_eq, if_neg h3,
    hd3, chunks1000_eq, if_pos rfl]
  simp only [List.map_cons, List.map_nil, List.length_take, hd1, hd2, h]
  norm_num

/-- Running the batch loop when every chunk before `c` saves and `c` fails:
exactly the chunks up to and including `c` are attempted, only those before
`c` are committed, and the error propagates. -/
theorem runBatches_fail (saveOk : List AlgoliaProductRecord → Bool)
    (pre : List (List AlgoliaProductRecord)) (c : List AlgoliaProductRecord)
    (post : List (List AlgoliaProductRecord))
    (hpre : ∀ d ∈ pre, saveOk d = true) (hc : saveOk c = false) :
    runBatches saveOk (pre ++ c :: post) = ⟨pre ++ [c], pre, false⟩ := by
  induction pre with
  | nil =>
    simp [runBatches, hc]
  | cons d ds ih =>
    have hd : saveOk d = true := hpre d (List.mem_cons_self d ds)
    rw [List.cons_append]
    simp only [runBatches, hd, if_true]
    rw [ih fun e he => hpre e (List.mem_cons_of_mem d he)]
    rfl

/-- C5: upserting valid records splits them into consecutive chunks of at
most 1000 saved in order (2500 records give sizes 1000, 1000, 500); when
the save of chunk `c` fails after the chunks `pre` succeeded, exactly
`pre ++ [c]` is attempted, only `pre` stays committed, and the error
propagates to the caller (`ok = false`). -/
theorem batch_chunking_spec (saveOk : List AlgoliaProductRecord → Bool)
    (records : List AlgoliaProductRecord) (pre : List (List AlgoliaProductRecord))
    (c : List AlgoliaProductRecord) (post : List (List AlgoliaProductRecord))
    (hval : ∀ r ∈ records, validateAlgoliaRecord r = true)
    (hsplit : chunks1000 records = pre ++ c :: post)
    (hpre : ∀ d ∈ pre, saveOk d = true) (hc : saveOk c = false) :
    (∀ d ∈ chunks1000 records, d.length ≤ 1000)
    ∧ (records.length = 2500 → (chunks1000 records).map List.length = [1000, 1000, 500])
    ∧ indexAlgoliaRecords saveOk records = ⟨pre ++ [c], pre, false⟩ := by
  have hfilter : records.filter validateAlgoliaRecord = records := List.filter_eq_self.mpr hval
  have hne : records ≠ [] := by
    intro he
    rw [he, chunks1000_eq, if_pos rfl] at hsplit
    exact List.cons_ne_nil c post (List.append_eq_nil.mp hsplit.symm).2
  have hemp : records.isEmpty = false := List.isEmpty_eq_false.mpr hne
  refine ⟨chunks1000_length_le records.length records le_rfl,
    fun h2500 => chunks1000_2500 records h2500, ?_⟩
  simp only [indexAlgoliaRecords, hemp, hfilter, Bool.false_eq_true, if_false]
  rw [hsplit]
  exact runBatches_fail saveOk pre c post hpre hc

/-- A minimal valid record. -/
def c5r1 : AlgoliaProductRecord :=
  { objectID := "a", id := "a", product_id := "p", variant_id := "v",
    product_title := "T", variant_title := "T", sku := "", price := 0,
    currency_code := "usd", stocked_quantity := 0, created_at := "", updated_at := "",
    status := "published", handle := "", thumbnail := "", categories := [], tags := [],
    option_name := none, option_value := none }

/-- A second valid record, distinguished by objectID. -/
def c5r2 : AlgoliaProductRecord := { c5r1 with objectID := "b" }

/-- A third valid record. -/
def c5r3 : AlgoliaProductRecord := { c5r1 with objectID := "c" }

/-- 2500 valid records: 1000 copies of `c5r1`, 1000 of `c5r2`, 500 of `c5r3`. -/
def c5records : List AlgoliaProductRecord :=
  List.replicate 1000 c5r1 ++ (List.replicate 1000 c5r2 ++ List.replicate 500 c5r3)

/-- An engine that rejects exactly the chunk whose first record is `c5r2`
(the second chunk of `c5records`). -/
def c5saveOk : List AlgoliaProductRecord → Bool :=
  fun chunk => !(chunk.head?.map AlgoliaProductRecord.objectID == some "b")

theorem c5_head_r1 : (List.replicate 1000 c5r1).head? = some c5r1 := by
  rw [show (1000 : ℕ) = 999 + 1 from rfl, List.replicate_succ]
  rfl

theorem c5_head_r2 : (List.replicate 1000 c5r2).head? = some c5r2 := by
  rw [show (1000 : ℕ) = 999 + 1 from rfl, List.replicate_succ]
  rfl

theorem c5_chunks :
    chunks1000 c5records
      = [List.replicate 1000 c5r1] ++ List.replicate 1000 c5r2 :: [List.replicate 500 c5r3] := by
  have hne1 : c5records ≠ [] := by
    intro he
    have h := congrArg List.length he
    rw [c5records, List.length_append, List.length_append, List.length_replicate,
      List.length_replicate, List.length_replicate, List.length_nil] at h
    omega
  have e1 : c5records.take 1000 = List.replicate 1000 c5r1 := by
    rw [c5records]
    exact List.take_left' (List.length_replicate 1000 c5r1)
  have e2 : c5records.drop 1000 = List.replicate 1000 c5r2 ++ List.replicate 500 c5r3 := by
    rw [c5records]
    exact List.drop_left' (List.length_replicate 1000 c5r1)
  have hne2 : List.replicate 1000 c5r2 ++ List.replicate 500 c5r3 ≠ ([] : List AlgoliaProductRecord) := by
    intro he
    have h := congrArg List.length he
    rw [List.length_append, List.length_replicate, List.length_replicate, List.length_nil] at h
    omega
  have e3 : (List.replicate 1000 c5r2 ++ List.replicate 500 c5r3).take 1000
      = List.replicate 1000 c5r2 :=
    List.take_left' (List.length_replicate 1000 c5r2)
  have e4 : (List.replicate 1000 c5r2 ++ List.replicate 500 c5r3).drop 1000
      = List.replicate 500 c5r3 :=
    List.drop_left' (List.length_replicate 1000 c5r2)
  have hne3 : List.replicate 500 c5r3 ≠ ([] : List AlgoliaProductRecord) := by
    intro he
    have h := congrArg List.length he
    rw [List.length_replicate, List.length_nil] at h
    omega
  have e5 : (List.replicate 500 c5r3).take 1000 = List.replicate 500 c5r3 :=
    List.take_of_length_le (by rw [List.length_replicate]; norm_num)
  have e6 : (List.replicate 500 c5r3).drop 1000 = ([] : List AlgoliaProductRecord) :=
    List.drop_eq_nil_of_le (by rw [List.length_replicate]; norm_num)
  rw [chunks1000_eq, if_neg hne1, e1, e2, chunks1000_eq, if_neg hne2, e3, e4,
    chunks1000_eq, if_neg hne3, e5, e6, chunks1000_eq, if_pos rfl]
  rfl

/-- Witness for C5 at the concrete 2500-record input whose second chunk
fails. -/
theorem batch_chunking_spec_witness :
    (∀ d ∈ chunks1000 c5records, d.length ≤ 1000)
    ∧ (c5records.length = 2500 → (chunks1000 c5records).map List.length = [1000, 1000, 500])
    ∧ indexAlgoliaRecords c5saveOk c5records
        = ⟨[List.replicate 1000 c5r1] ++ [List.replicate 1000 c5r2],
           [List.replicate 1000 c5r1], false⟩ := by
  refine batch_chunking_spec c5saveOk c5records [List.replicate 1000 c5r1]
    (List.replicate 1000 c5r2) [List.replicate 500 c5r3] ?_ c5_chunks ?_ ?_
  · intro r hr
    rw [c5records] at hr
    rcases List.mem_append.mp hr with h | h
    · rw [List.eq_of_mem_replicate h]
      decide
    · rcases List.mem_append.mp h with h2 | h2
      · rw [List.eq_of_mem_replicate h2]
        decide
      · rw [List.eq_of_mem_replicate h2]
        decide
  · intro d hd
    rw [List.mem_singleton.mp hd, c5saveOk, c5_head_r1]
    decide
  · rw [c5saveOk, c5_head_r2]
    decide

/-- C9: calling `indexAlgoliaRecords` with an empty list, or with records
that all fail validation, returns successfully without attempting any
`saveObjects` call — nothing is committed and no error is raised. -/
theorem index_empty_noop (saveOk : List AlgoliaProductRecord → Bool)
    (records : List AlgoliaProductRecord)
    (h : records = [] ∨ ∀ r ∈ records, validateAlgoliaRecord r = false) :
    indexAlgoliaRecords saveOk records = ⟨[], [], true⟩ := by
  rcases h with h | h
  · rw [h]
    rfl
  · by_cases hne : records = []
    · rw [hne]
      rfl
    · have hfilter : records.filter validateAlgoliaRecord = [] :=
        List.filter_eq_nil_iff.mpr fun r hr => by rw [h r hr]; exact Bool.false_ne_true
      simp only [indexAlgoliaRecords, hfilter, List.isEmpty_eq_false.mpr hne,
        Bool.false_eq_true, if_false, List.isEmpty_nil, if_true]

/-- Witness for C9: one invalid record (empty objectID) is dropped and the
engine is never called. -/
theorem index_empty_noop_witness :
    indexAlgoliaRecords (fun _ => true) [{ c5r1 with objectID := "" }] = ⟨[], [], true⟩ :=
  index_empty_noop (fun _ => true) [{ c5r1 with objectID := "" }]
    (Or.inr fun r hr => by rw [List.mem_singleton.mp hr]; decide)

/-! ## Claims C6, C7 and C10: the query service -/

/-- The filters of the spec's example call
`search("", {price_min: 500, price_max: 1500, in_stock: true}, 0, 20)`. -/
def c6Filters : SearchFilters :=
  { category := none, currency_code := none, price_min := some 500,
    price_max := some 1500, in_stock := some true, tags := none }

theorem c6Filters_clauses :
    buildFilterClauses c6Filters
      = [FilterClause.priceRange 500 1500, FilterClause.inStock,
         FilterClause.statusPublished] := by
  decide

/-- C6: `search` builds a conjunction of filter clauses where
`price_min`/`price_max` become the inclusive range `price:{min} TO {max}`
(absent lower bound defaulting to 0, absent upper bound to
`Number.MAX_SAFE_INTEGER`), `in_stock = true` becomes
`stocked_quantity > 0`, and `status:published` is always appended last,
whatever the query and filters; consequently, against any engine honouring
the filters, the spec's example call only returns records with
`500 ≤ price ≤ 1500`, positive stock, and status published. -/
theorem search_filter_composition (engine : EngineRequest → EngineResponse)
    (heng : ∀ req, ∀ h ∈ (engine req).hits, ∀ cl ∈ req.filters, clauseSat h cl = true)
    (f : SearchFilters) :
    ((buildFilterClauses f).getLast? = some FilterClause.statusPublished)
    ∧ (f.price_min ≠ none ∨ f.price_max ≠ none →
        FilterClause.priceRange (truthyOrQ f.price_min 0)
          (truthyOrQ f.price_max maxSafeInteger) ∈ buildFilterClauses f)
    ∧ (f.in_stock = some true → FilterClause.inStock ∈ buildFilterClauses f)
    ∧ ∀ h ∈ (search engine "" c6Filters 0 20).hits,
        (500 : ℚ) ≤ h.price ∧ h.price ≤ 1500 ∧ 0 < h.stocked_quantity
          ∧ h.status = "published" := by
  refine ⟨List.getLast?_concat _, ?_, ?_, ?_⟩
  · intro hcond
    simp [buildFilterClauses, if_pos hcond]
  · intro hstock
    simp [buildFilterClauses, hstock]
  · intro h hh
    have hr : h ∈ (engine (searchRequest "" c6Filters 0 20)).hits := hh
    have hsat := heng (searchRequest "" c6Filters 0 20) h hr
    have hfs : (searchRequest "" c6Filters 0 20).filters
        = [FilterClause.priceRange 500 1500, FilterClause.inStock,
           FilterClause.statusPublished] := c6Filters_clauses
    rw [hfs] at hsat
    have h1 := hsat (FilterClause.priceRange 500 1500) (by simp)
    have h2 := hsat FilterClause.inStock (by simp)
    have h3 := hsat FilterClause.statusPublished (by simp)
    simp only [clauseSat, Bool.and_eq_true, decide_eq_true_eq] at h1 h2 h3
    exact ⟨h1.1, h1.2, h2, by simpa using h3⟩

/-- An engine returning no hits and omitting every optional field. -/
def emptyEngine : EngineRequest → EngineResponse :=
  fun _ => ⟨[], none, none, none, none, none, none⟩

/-- Witness for C6 with an engine that trivially honours every filter. -/
theorem search_filter_composition_witness :
    ((buildFilterClauses c6Filters).getLast? = some FilterClause.statusPublished)
    ∧ (c6Filters.price_min ≠ none ∨ c6Filters.price_max ≠ none →
        FilterClause.priceRange (truthyOrQ c6Filters.price_min 0)
          (truthyOrQ c6Filters.price_max maxSafeInteger) ∈ buildFilterClauses c6Filters)
    ∧ (c6Filters.in_stock = some true → FilterClause.inStock ∈ buildFilterClauses c6Filters)
    ∧ ∀ h ∈ (search emptyEngine "" c6Filters 0 20).hits,
        (500 : ℚ) ≤ h.price ∧ h.price ≤ 1500 ∧ 0 < h.stocked_quantity
          ∧ h.status = "published" :=
  search_filter_composition emptyEngine
    (fun req h hh => by cases hh) c6Filters

/-- C7, counterexample: when the engine omits every optional field, the
normalized result's `processingTimeMS` is absent (not coerced to 0) and
`hitsPerPage` falls back to the requested page size 20, not to 0 — so not
every omitted numeric field is coerced to 0, and the result does not always
contain a processing time. -/
theorem result_normalization_counterexample :
    (search emptyEngine "q" {} 0 20).processingTimeMS = none
    ∧ (search emptyEngine "q" {} 0 20).hitsPerPage = 20
    ∧ (20 : ℕ) ≠ 0 := by
  exact ⟨rfl, rfl, by decide⟩

/-- C7 (amended): the normalized result always contains hits, total hit
count, current page, total pages and page size, with omitted `nbHits`,
`page` and `nbPages` coerced to 0 — but an omitted `hitsPerPage` is
replaced by the requested page size, and `processingTimeMS` and the query
string are passed through verbatim (staying absent when the engine omits
them). -/
theorem result_normalization_spec (engine : EngineRequest → EngineResponse)
    (q : String) (f : SearchFilters) (page hitsPerPage : ℕ)
    (resp : EngineResponse) (hresp : engine (searchRequest q f page hitsPerPage) = resp)
    (h1 : resp.nbHits = none) (h2 : resp.page = none) (h3 : resp.nbPages = none)
    (h4 : resp.hitsPerPage = none) :
    (search engine q f page hitsPerPage).nbHits = 0
    ∧ (search engine q f page hitsPerPage).page = 0
    ∧ (search engine q f page hitsPerPage).nbPages = 0
    ∧ (search engine q f page hitsPerPage).hitsPerPage = hitsPerPage
    ∧ (search engine q f page hitsPerPage).processingTimeMS = resp.processingTimeMS
    ∧ (search engine q f page hitsPerPage).query = resp.query
    ∧ (search engine q f page hitsPerPage).hits = resp.hits := by
  simp [search, hresp, h1, h2, h3, h4]

/-- Witness for C7's amended theorem at the all-omitting engine. -/
theorem result_normalization_spec_witness :
    (search emptyEngine "q" {} 0 20).nbHits = 0
    ∧ (search emptyEngine "q" {} 0 20).page = 0
    ∧ (search emptyEngine "q" {} 0 20).nbPages = 0
    ∧ (search emptyEngine "q" {} 0 20).hitsPerPage = 20
    ∧ (search emptyEngine "q" {} 0 20).processingTimeMS
        = (emptyEngine (searchRequest "q" {} 0 20)).processingTimeMS
    ∧ (search emptyEngine "q" {} 0 20).query = (emptyEngine (searchRequest "q" {} 0 20)).query
    ∧ (search emptyEngine "q" {} 0 20).hits = (emptyEngine (searchRequest "q" {} 0 20)).hits :=
  result_normalization_spec emptyEngine "q" {} 0 20
    (emptyEngine (searchRequest "q" {} 0 20)) rfl rfl rfl rfl rfl

/-! ## Claim C8: incremental update -/

theorem validateProduct_spec (p : Product) (h : validateProduct p = true) :
    p.id ≠ "" ∧ p.title ≠ "" ∧ p.variants.getD [] ≠ [] := by
  simp only [validateProduct, Bool.and_eq_true, Bool.not_eq_true', beq_eq_false_iff_ne,
    ne_eq, List.isEmpty_eq_false] at h
  exact ⟨h.1.1, h.1.2, h.2⟩

theorem underscore_data (a b : String) : (a ++ "_" ++ b).data = a.data ++ '_' :: b.data := by
  rw [String.data_append, String.data_append]
  simp [List.append_assoc]

/-- Transformed records of a valid product pass `validateAlgoliaRecord`. -/
theorem transform_valid_record (now : String) (p : Product) (v : ProductVariant)
    (r : AlgoliaProductRecord) (h : transformProductToRecord now p v = .ok r)
    (htitle : p.title ≠ "") :
    validateAlgoliaRecord r = true := by
  obtain ⟨ho, -, -, ht, -⟩ := transform_ok_spec now p v r h
  have h1 : p.id ++ "_" ++ v.id ≠ "" := by
    intro he
    have hd := congrArg String.data he
    rw [underscore_data] at hd
    simp at hd
  simp [validateAlgoliaRecord, ho, ht, h1, htitle]

/-- Membership in `productRecords` is exactly "transform of a valid
variant of `p`". -/
theorem mem_productRecords (now : String) (p : Product) (r : AlgoliaProductRecord) :
    r ∈ productRecords now p
      ↔ ∃ v ∈ p.variants.getD [], validateVariant v = true
          ∧ transformProductToRecord now p v = .ok r := by
  unfold productRecords
  rw [List.mem_filterMap]
  constructor
  · rintro ⟨v, hv, hvr⟩
    by_cases hval : validateVariant v = true
    · rw [if_pos hval] at hvr
      rcases htr : transformProductToRecord now p v with e | r2
      · rw [htr] at hvr
        cases hvr
      · rw [htr] at hvr
        simp only [Except.toOption, Option.some.injEq] at hvr
        exact ⟨v, hv, hval, by rw [htr, hvr]⟩
    · rw [if_neg hval] at hvr
      cases hvr
  · rintro ⟨v, hv, hval, htr⟩
    refine ⟨v, hv, ?_⟩
    rw [if_pos hval, htr]
    rfl

/-- With at most 1000 matching records in the index, `deleteProduct`
removes every record carrying the product id. -/
theorem deleteProductIndex_complete (idx : List AlgoliaProductRecord) (pid : String)
    (hcount : (idx.filter fun r => r.product_id == pid).length ≤ 1000) :
    ∀ r ∈ deleteProductIndex idx pid, r.product_id ≠ pid := by
  intro r hr hpid
  unfold deleteProductIndex at hr
  rw [List.take_of_length_le hcount] at hr
  obtain ⟨hmem, hkeep⟩ := List.mem_filter.mp hr
  have hhit : r ∈ idx.filter fun x => x.product_id == pid :=
    List.mem_filter.mpr ⟨hmem, by rw [hpid]; exact beq_self_eq_true pid⟩
  have hobj : r.objectID
      ∈ (idx.filter fun x => x.product_id == pid).map AlgoliaProductRecord.objectID :=
    List.mem_map_of_mem _ hhit
  rw [Bool.not_eq_true'] at hkeep
  have : r.objectID ∈ ((idx.filter fun x => x.product_id == pid).map
      AlgoliaProductRecord.objectID) → False := by
    intro hm
    have hc : ((idx.filter fun x => x.product_id == pid).map
        AlgoliaProductRecord.objectID).contains r.objectID = true := by
      have := List.elem_iff.mpr hm
      exact this
    rw [hc] at hkeep
    cases hkeep
  exact this hobj

theorem indexProductsRecords_single (now : String) (p : Product)
    (hv : validateProduct p = true) :
    indexProductsRecords now [p] = productRecords now p := by
  simp [indexProductsRecords, List.filter, hv]

/-- C8: `updateProduct` deletes the existing records for the product id
and only then upserts the freshly transformed variant set; consequently
(with the index holding at most 1000 records for that product, the
search-page bound) every remaining record for the product id is the
transform of a current variant — a variant removed from the product leaves
no record — and every current valid variant's record is present. -/
theorem update_delete_before_upsert (now : String) (idx : List AlgoliaProductRecord)
    (p : Product) (hv : validateProduct p = true)
    (hcount : (idx.filter fun r => r.product_id == p.id).length ≤ 1000) :
    updateProductIndex now idx p
      = .ok (upsertRecords (deleteProductIndex idx p.id)
          ((indexProductsRecords now [p]).filter validateAlgoliaRecord))
    ∧ ∀ idx2, updateProductIndex now idx p = .ok idx2 →
        (∀ r ∈ idx2, r.product_id = p.id →
          ∃ v ∈ p.variants.getD [], validateVariant v = true
            ∧ transformProductToRecord now p v = .ok r)
        ∧ (∀ v ∈ p.variants.getD [], validateVariant v = true →
            ∀ r, transformProductToRecord now p v = .ok r → r ∈ idx2) := by
  obtain ⟨-, htitle, -⟩ := validateProduct_spec p hv
  have hdef : updateProductIndex now idx p
      = .ok (upsertRecords (deleteProductIndex idx p.id)
          ((indexProductsRecords now [p]).filter validateAlgoliaRecord)) := by
    simp [updateProductIndex, hv]
  refine ⟨hdef, fun idx2 hidx2 => ?_⟩
  rw [hdef] at hidx2
  injection hidx2 with hidx2
  subst hidx2
  constructor
  · intro r hr hrpid
    rcases List.mem_append.mp hr with hleft | hright
    · exfalso
      have hdel : r ∈ deleteProductIndex idx p.id := (List.mem_filter.mp hleft).1
      exact deleteProductIndex_complete idx p.id hcount r hdel hrpid
    · have hpr : r ∈ productRecords now p := by
        have := (List.mem_filter.mp hright).1
        rwa [indexProductsRecords_single now p hv] at this
      exact (mem_productRecords now p r).mp hpr
  · intro v hvv hval r htr
    refine List.mem_append_right _ ?_
    rw [indexProductsRecords_single now p hv]
    refine List.mem_filter.mpr ⟨?_, transform_valid_record now p v r htr htitle⟩
    exact (mem_productRecords now p r).mpr ⟨v, hvv, hval, htr⟩

/-- The updated product: previously indexed with variants A and B, now
carrying only variant A. -/
def c8Product : Product :=
  ⟨"p1", "Tee", none, some "published", none, .other, .other, none, none,
    some [⟨"A", none, none, .num 2, none, none, none⟩]⟩

/-- The stale indexed record for variant A. -/
def c8recA : AlgoliaProductRecord :=
  { c5r1 with
    objectID := "p1_A"
    id := "p1_A"
    product_id := "p1"
    variant_id := "A"
    product_title := "Tee"
    variant_title := "Tee" }

/-- The stale indexed record for the removed variant B. -/
def c8recB : AlgoliaProductRecord :=
  { c5r1 with
    objectID := "p1_B"
    id := "p1_B"
    product_id := "p1"
    variant_id := "B"
    product_title := "Tee"
    variant_title := "Tee" }

/-- Witness for C8 at the {A, B} → {A} scenario. -/
theorem update_delete_before_upsert_witness :
    updateProductIndex "now" [c8recA, c8recB] c8Product
      = .ok (upsertRecords (deleteProductIndex [c8recA, c8recB] c8Product.id)
          ((indexProductsRecords "now" [c8Product]).filter validateAlgoliaRecord))
    ∧ ∀ idx2, updateProductIndex "now" [c8recA, c8recB] c8Product = .ok idx2 →
        (∀ r ∈ idx2, r.product_id = c8Product.id →
          ∃ v ∈ c8Product.variants.getD [], validateVariant v = true
            ∧ transformProductToRecord "now" c8Product v = .ok r)
        ∧ (∀ v ∈ c8Product.variants.getD [], validateVariant v = true →
            ∀ r, transformProductToRecord "now" c8Product v = .ok r → r ∈ idx2) :=
  update_delete_before_upsert "now" [c8recA, c8recB] c8Product (by decide) (by decide)

/-- C10, counterexample: with `price_min` absent, `price_max = 0` does NOT
issue the same engine request as an absent `price_max` — the former adds a
(vacuous) `price:0 TO MAX_SAFE_INTEGER` clause, the latter adds no price
clause at all. -/
theorem price_max_zero_counterexample :
    buildFilterClauses { price_max := some 0 }
      = [FilterClause.priceRange 0 maxSafeInteger, FilterClause.statusPublished]
    ∧ buildFilterClauses {} = [FilterClause.statusPublished]
    ∧ searchRequest "" { price_max := some 0 } 0 20 ≠ searchRequest "" {} 0 20 := by
  refine ⟨by decide, by decide, by decide⟩

/-- C10 (amended): because falsy bounds are replaced by defaults,
`price_max = 0` never restricts results — the price clause it contributes
has upper bound `Number.MAX_SAFE_INTEGER`; and whenever `price_min` is
present, the engine request is exactly the one issued with `price_max`
absent (only when `price_min` is also absent do the requests differ, by the
vacuous clause above). -/
theorem price_max_zero_spec (f : SearchFilters) (h0 : f.price_max = some 0)
    (q : String) (page hitsPerPage : ℕ) :
    (f.price_min.isSome →
      searchRequest q f page hitsPerPage
        = searchRequest q { f with price_max := none } page hitsPerPage)
    ∧ FilterClause.priceRange (truthyOrQ f.price_min 0) maxSafeInteger
        ∈ buildFilterClauses f := by
  constructor
  · intro hmin
    obtain ⟨qm, hqm⟩ := Option.isSome_iff_exists.mp hmin
    simp [searchRequest, buildFilterClauses, h0, hqm, truthyOrQ]
  · have hcond : f.price_min ≠ none ∨ f.price_max ≠ none := by
      right
      rw [h0]
      exact Option.some_ne_none 0
    have hmax : truthyOrQ f.price_max maxSafeInteger = maxSafeInteger := by
      rw [h0]
      simp [truthyOrQ]
    simp [buildFilterClauses, if_pos hcond, hmax]

/-- Witness for C10's amended theorem at
`{price_min := 500, price_max := 0}`. -/
theorem price_max_zero_spec_witness :
    (({ price_min := some 500, price_max := some 0 } : SearchFilters).price_min.isSome →
      searchRequest "" { price_min := some 500, price_max := some 0 } 0 20
        = searchRequest ""
            { ({ price_min := some 500, price_max := some 0 } : SearchFilters) with
              price_max := none } 0 20)
    ∧ FilterClause.priceRange
        (truthyOrQ ({ price_min := some 500, price_max := some 0 } : SearchFilters).price_min 0)
        maxSafeInteger
        ∈ buildFilterClauses { price_min := some 500, price_max := some 0 } :=
  price_max_zero_spec { price_min := some 500, price_max := some 0 } rfl "" 0 20
